import Mathlib

/-!
Shallow embedding of `src/src/dfinity_js_backend/src/index.ts`
(FarzeenKist/Data-Marketplace), an Azle canister exposing CRUD operations
over two stable key/value stores (`DataItemsStorage`, `purchasersStorage`).

Modelling choices:
* `Principal` is modelled as a `String` (the code only compares principals
  via `toString()` equality, so the textual form is all that matters).
* A `StableBTreeMap` is modelled as an association list `List (String × α)`
  with `get` / `insert` (upsert) / `remove` / `values`; the iteration order
  of `values` is the list order.
* `nat64` is modelled as `Nat` (no operation here can overflow 2^64 given
  nat64 inputs except `start + limit` in `getMoreDataItems`, whose JS
  `Number` conversion is likewise elided; the slice semantics are kept).
* `uuidv4()` (from the `uuid` npm package, fed by the
  `globalThis.crypto.getRandomValues` polyfill at the bottom of the file) is
  modelled as a function of the random byte sequence produced by the
  polyfill; see `uuidv4` below.
* Each canister method becomes a pure function from its arguments, the
  ambient caller and the relevant store state to a result paired with the
  new store state (queries just return the result).
-/

namespace Marketplace

/-- The association-list model of an Azle `StableBTreeMap` instance. -/
abbrev Store (α : Type) := List (String × α)

/-- `StableBTreeMap.get`: the value stored under `k`, if any. -/
def storeGet (m : Store α) (k : String) : Option α :=
  match m with
  | [] => none
  | (k', v) :: rest => if k' = k then some v else storeGet rest k

/-- `StableBTreeMap.insert`: upsert — overwrite in place if `k` is present,
otherwise add the binding at the end. -/
def storeInsert (m : Store α) (k : String) (v : α) : Store α :=
  match m with
  | [] => [(k, v)]
  | (k', v') :: rest =>
    if k' = k then (k, v) :: rest else (k', v') :: storeInsert rest k v

/-- `StableBTreeMap.remove`: drop the binding for `k` (the first one, which
is the only one when keys are unique). -/
def storeRemove (m : Store α) (k : String) : Store α :=
  match m with
  | [] => []
  | (k', v') :: rest =>
    if k' = k then rest else (k', v') :: storeRemove rest k

/-- `StableBTreeMap.values()`: all stored values in iteration order. -/
def storeValues (m : Store α) : List α :=
  m.map Prod.snd

/-- The `DataItem` record type (index.ts lines 12-23). `seller` holds the
textual form of the principal. -/
structure DataItem where
  id : String
  title : String
  description : String
  price : Nat
  seller : String
  attachmentURL : String
  dataFormat : String
  status : String
  quality : String
  rating : Nat
deriving DecidableEq, Repr

/-- The `Purchaser` record type (index.ts lines 25-32). -/
structure Purchaser where
  id : String
  owner : String
  name : String
  price : Nat
  message : String
  purchasedItem : List String
deriving DecidableEq, Repr

/-- The `DataItemPayload` record type (index.ts lines 41-50). -/
structure DataItemPayload where
  title : String
  description : String
  price : Nat
  attachmentURL : String
  dataFormat : String
  status : String
  quality : String
  rating : Nat
deriving DecidableEq, Repr

/-- The `PurchaserPayload` record type (index.ts lines 34-38). -/
structure PurchaserPayload where
  name : String
  price : Nat
  message : String
deriving DecidableEq, Repr

/-- The `Message` error variant (index.ts lines 52-58). -/
inductive Message where
  | NotFound : String → Message
  | InvalidPayload : String → Message
  | PaymentFailed : String → Message
  | PaymentCompleted : String → Message
  | AuthenticationFailed : String → Message
deriving DecidableEq, Repr

/-- The whitespace characters removed by JavaScript's
`String.prototype.trim` (the ASCII ones; the exotic Unicode space code
points play no role in this development). -/
def jsWhitespace (c : Char) : Bool :=
  c = ' ' || c = '\t' || c = '\n' || c = '\r' || c = '\x0b' || c = '\x0c'

/-- Remove leading and trailing whitespace from a character list. -/
def trimChars (cs : List Char) : List Char :=
  ((cs.dropWhile jsWhitespace).reverse.dropWhile jsWhitespace).reverse

/-- JavaScript's `str.trim()`. -/
def jsTrim (s : String) : String :=
  String.mk (trimChars s.data)

/-- `isInvalidString` (index.ts lines 68-70): trims the string and checks
whether what remains is empty (`str.trim().length == 0`). -/
def isInvalidString (s : String) : Bool :=
  (jsTrim s).length == 0

/-- A hexadecimal digit as accepted by the character class `[0-9a-fA-F]`
of the uuid regex (index.ts line 74). -/
def isHexDigit (c : Char) : Bool :=
  (('0' ≤ c) && (c ≤ '9')) || (('a' ≤ c) && (c ≤ 'f')) || (('A' ≤ c) && (c ≤ 'F'))

/-- Consume exactly `n` hexadecimal digits from the front of `cs`,
returning the remainder (the regex fragment `[0-9a-fA-F]{n}`). -/
def takeHex : Nat → List Char → Option (List Char)
  | 0, cs => some cs
  | _ + 1, [] => none
  | n + 1, c :: cs => if isHexDigit c then takeHex n cs else none

/-- Match hyphen-separated groups of hexadecimal digits of the given
lengths against the whole character list (anchored at both ends), exactly
as the regex `^H{n1}-H{n2}-...-H{nk}$` does.  The `\b` boundaries of the
source regex sit between a hex digit and a hyphen and are therefore
always satisfied, so they add nothing. -/
def matchGroups : List Nat → List Char → Bool
  | [], cs => cs.isEmpty
  | n :: ns, cs =>
    match takeHex n cs with
    | none => false
    | some rest =>
      match ns with
      | [] => rest.isEmpty
      | _ :: _ =>
        match rest with
        | [] => false
        | c :: rest' => if c = '-' then matchGroups ns rest' else false

/-- `isValidUuid` (index.ts lines 73-76): the regex
`^[0-9a-fA-F]{8}\b-[0-9a-fA-F]{4}\b-[0-9a-fA-F]{4}\b-[0-9a-fA-F]{4}\b-[0-9a-fA-F]{12}$`
applied to `id` (the regex object is created afresh on every call, so the
`g` flag never carries state over). -/
def isValidUuid (id : String) : Bool :=
  matchGroups [8, 4, 4, 4, 12] id.data

/-- `validateDataItemPayload` (index.ts lines 82-101): collects one error
string per violated field, in source order. -/
def validateDataItemPayload (p : DataItemPayload) : List String :=
  (if isInvalidString p.description then
    ["description=\x27" ++ p.description ++ "\x27 cannot be empty."] else [])
  ++ (if isInvalidString p.quality then
    ["quality=\x27" ++ p.quality ++ "\x27 cannot be empty."] else [])
  ++ (if isInvalidString p.title then
    ["title=\x27" ++ p.title ++ "\x27 cannot be empty."] else [])
  ++ (if isInvalidString p.attachmentURL then
    ["attachmentURL=\x27" ++ p.attachmentURL ++ "\x27 cannot be empty."] else [])
  ++ (if p.price == 0 then
    ["price=\x27" ++ toString p.price ++ "\x27 must be greater than zero."] else [])

/-- `validatePurchaserPayload` (index.ts lines 105-118). -/
def validatePurchaserPayload (p : PurchaserPayload) : List String :=
  (if isInvalidString p.name then
    ["name=\x27" ++ p.name ++ "\x27 cannot be empty."] else [])
  ++ (if isInvalidString p.message then
    ["message=\x27" ++ p.message ++ "\x27 cannot be empty."] else [])
  ++ (if p.price == 0 then
    ["price=\x27" ++ toString p.price ++ "\x27 must be greater than zero."] else [])

/-- One hexadecimal digit character (lowercase), as produced by the uuid
package's byte-to-hex table: code point 48 is `0` and 87 + 10 = 97 is `a`,
so values 0-9 print as digits and 10-15 as `a`-`f`. -/
def hexDigitChar (n : Nat) : Char :=
  let m := n % 16
  if m < 10 then Char.ofNat (48 + m) else Char.ofNat (87 + m)

/-- A byte rendered as two lowercase hexadecimal characters. -/
def byteToHex (n : Nat) : String :=
  String.mk [hexDigitChar (n / 16), hexDigitChar n]

/-- Modelled from the spec: the id generator (`uuidv4()` from the `uuid`
npm package; not part of src/, which only supplies its randomness through
the `globalThis.crypto.getRandomValues` polyfill at index.ts lines
324-335).  The spec calls its output the "canonical identifier":
a 36-character hyphenated hexadecimal string in 8-4-4-4-12 groups.
The v4 algorithm consumes 16 random bytes (the polyfill hands back 32
`Math.random`-filled bytes of which the first 16 are used), forces the
version nibble of byte 6 to `4` (`(b & 0x0f) | 0x40`) and the variant
bits of byte 8 to `10` (`(b & 0x3f) | 0x80`), and prints the bytes in
lowercase hex with hyphens after bytes 3, 5, 7 and 9. -/
def uuidv4 (bytes : List Nat) : String :=
  let b : Nat → Nat := fun i => bytes.getD i 0 % 256
  byteToHex (b 0) ++ byteToHex (b 1) ++ byteToHex (b 2) ++ byteToHex (b 3)
  ++ "-" ++ byteToHex (b 4) ++ byteToHex (b 5)
  ++ "-" ++ byteToHex (b 6 % 16 + 64) ++ byteToHex (b 7)
  ++ "-" ++ byteToHex (b 8 % 64 + 128) ++ byteToHex (b 9)
  ++ "-" ++ byteToHex (b 10) ++ byteToHex (b 11) ++ byteToHex (b 12)
  ++ byteToHex (b 13) ++ byteToHex (b 14) ++ byteToHex (b 15)

/-- Head-anchored match: `needle` occurs at the start of the list. -/
def matchesAt : List Char → List Char → Bool
  | [], _ => true
  | _ :: _, [] => false
  | a :: as, b :: bs => if a = b then matchesAt as bs else false

/-- `String.prototype.includes` on character lists: `needle` occurs
somewhere in `hay` (the empty needle always occurs). -/
def includesSub (needle : List Char) : List Char → Bool
  | [] => matchesAt needle []
  | c :: t => matchesAt needle (c :: t) || includesSub needle t

/-- `hay.includes(needle)` on strings. -/
def jsIncludes (hay needle : String) : Bool :=
  includesSub needle.data hay.data

/-- `Array.prototype.slice(a, b)`: the elements with index in `[a, b)`,
clamped to the array bounds. -/
def jsSlice (l : List α) (a b : Nat) : List α :=
  (l.take b).drop a

/-- The JS spread `{ ...data, ...payload }` for a `DataItem` and a
`DataItemPayload`: every payload field overwrites the stored one; `id`
and `seller`, absent from the payload, are kept. -/
def mergeDataItem (d : DataItem) (p : DataItemPayload) : DataItem :=
  { d with
    title := p.title, description := p.description, price := p.price,
    attachmentURL := p.attachmentURL, dataFormat := p.dataFormat,
    status := p.status, quality := p.quality, rating := p.rating }

/-- The JS spread `{ ...purchaser, ...payload }` for a `Purchaser` and a
`PurchaserPayload`: `id`, `owner` and `purchasedItem` are kept. -/
def mergePurchaser (u : Purchaser) (q : PurchaserPayload) : Purchaser :=
  { u with name := q.name, price := q.price, message := q.message }

/-! ### The canister operations (index.ts lines 126-319)

Each `update` method takes the ambient caller (`ic.caller().toString()`)
and the store it touches, and returns the result paired with the store
state after the call; `query` methods just return their result.  The
JS-level guard `typeof payload !== "object" || Object.keys(payload).length === 0`
at the head of the update methods can never fire for a candid-decoded
payload record (it always is an object with all its keys) and is
therefore not represented.  `addDataItem` and `addPurchaser` additionally
take the random byte sequence the `getRandomValues` polyfill produced for
this call. -/

/-- `getDataItems` (index.ts lines 128-131). -/
def getDataItems (st : Store DataItem) : List DataItem :=
  storeValues st

/-- `getPurchasers` (index.ts lines 133-136). -/
def getPurchasers (st : Store Purchaser) : List Purchaser :=
  storeValues st

/-- `getDataItem` (index.ts lines 138-148); its error type is plain text. -/
def getDataItem (st : Store DataItem) (id : String) : Except String DataItem :=
  if !isValidUuid id then
    .error ("Id=\x22" ++ id ++ "\x22 is not in the valid uuid format.")
  else
    match storeGet st id with
    | none => .error "Data Item not found"
    | some d => .ok d

/-- `getPurchaser` (index.ts lines 150-160). -/
def getPurchaser (st : Store Purchaser) (id : String) : Except String Purchaser :=
  if !isValidUuid id then
    .error ("Id=\x22" ++ id ++ "\x22 is not in the valid uuid format.")
  else
    match storeGet st id with
    | none => .error "Purchaser not found"
    | some p => .ok p

/-- The record `{ id: uuidv4(), seller: ic.caller(), ...payload }` built
by `addDataItem` (index.ts line 172). -/
def createdDataItem (caller : String) (bytes : List Nat)
    (payload : DataItemPayload) : DataItem :=
  { id := uuidv4 bytes, seller := caller,
    title := payload.title, description := payload.description,
    price := payload.price, attachmentURL := payload.attachmentURL,
    dataFormat := payload.dataFormat, status := payload.status,
    quality := payload.quality, rating := payload.rating }

/-- `addDataItem` (index.ts lines 164-177): validate the payload, build
the record `{ id: uuidv4(), seller: ic.caller(), ...payload }` and store
it under its id. -/
def addDataItem (caller : String) (bytes : List Nat) (st : Store DataItem)
    (payload : DataItemPayload) : Except Message DataItem × Store DataItem :=
  let errs := validateDataItemPayload payload
  if errs.length != 0 then
    (.error (.InvalidPayload ("Invalid payload. Errors=[" ++ String.intercalate "," errs ++ "]")), st)
  else
    let data : DataItem := createdDataItem caller bytes payload
    (.ok data, storeInsert st data.id data)

/-- `addPurchaser` (index.ts lines 179-192): like `addDataItem`, with
`purchasedItem` initialised to the empty sequence. -/
def addPurchaser (caller : String) (bytes : List Nat) (st : Store Purchaser)
    (payload : PurchaserPayload) : Except Message Purchaser × Store Purchaser :=
  let errs := validatePurchaserPayload payload
  if errs.length != 0 then
    (.error (.InvalidPayload ("Invalid payload. Errors=[" ++ String.intercalate "," errs ++ "]")), st)
  else
    let purchaser : Purchaser :=
      { id := uuidv4 bytes, owner := caller,
        name := payload.name, price := payload.price,
        message := payload.message, purchasedItem := [] }
    (.ok purchaser, storeInsert st purchaser.id purchaser)

/-- `updateDataItem` (index.ts lines 194-216): id format check, payload
validation, lookup, seller check, then `{ ...data, ...payload }` stored
back under `id`. -/
def updateDataItem (caller : String) (id : String) (payload : DataItemPayload)
    (st : Store DataItem) : Except Message DataItem × Store DataItem :=
  if !isValidUuid id then
    (.error (.InvalidPayload ("Id=\x22" ++ id ++ "\x22 is not in the valid uuid format.")), st)
  else
    let errs := validateDataItemPayload payload
    if errs.length != 0 then
      (.error (.InvalidPayload ("Invalid payload. Errors=[" ++ String.intercalate "," errs ++ "]")), st)
    else
      match storeGet st id with
      | none => (.error (.NotFound "Data not found"), st)
      | some data =>
        if data.seller ≠ caller then
          (.error (.AuthenticationFailed "Caller is not the seller of the item."), st)
        else
          let updatedData : DataItem := mergeDataItem data payload
          (.ok updatedData, storeInsert st id updatedData)

/-- `updatePurchaser` (index.ts lines 218-240): the payload fields are
`name`, `price`, `message`; `id`, `owner` and `purchasedItem` come from
the stored record (`{ ...purchaser, ...payload }`). -/
def updatePurchaser (caller : String) (id : String) (payload : PurchaserPayload)
    (st : Store Purchaser) : Except Message Purchaser × Store Purchaser :=
  if !isValidUuid id then
    (.error (.InvalidPayload ("Id=\x22" ++ id ++ "\x22 is not in the valid uuid format.")), st)
  else
    let errs := validatePurchaserPayload payload
    if errs.length != 0 then
      (.error (.InvalidPayload ("Invalid payload. Errors=[" ++ String.intercalate "," errs ++ "]")), st)
    else
      match storeGet st id with
      | none => (.error (.NotFound "Purchaser not found"), st)
      | some purchaser =>
        if purchaser.owner ≠ caller then
          (.error (.AuthenticationFailed "Caller is not the purchaser."), st)
        else
          let updatedPurchaser : Purchaser := mergePurchaser purchaser payload
          (.ok updatedPurchaser, storeInsert st id updatedPurchaser)

/-- `deleteDataItem` (index.ts lines 243-256): id format check, lookup,
seller check, remove; returns the removed record's `id` field. -/
def deleteDataItem (caller : String) (id : String)
    (st : Store DataItem) : Except Message String × Store DataItem :=
  if !isValidUuid id then
    (.error (.InvalidPayload ("Id=\x22" ++ id ++ "\x22 is not in the valid uuid format.")), st)
  else
    match storeGet st id with
    | none =>
      (.error (.NotFound ("cannot delete the DataItem: DataItem with id=" ++ id ++ " not found")), st)
    | some dataItem =>
      if dataItem.seller ≠ caller then
        (.error (.AuthenticationFailed "Caller is not the seller of the item."), st)
      else
        (.ok dataItem.id, storeRemove st id)

/-- `deletePurchaser` (index.ts lines 258-271). -/
def deletePurchaser (caller : String) (id : String)
    (st : Store Purchaser) : Except Message String × Store Purchaser :=
  if !isValidUuid id then
    (.error (.InvalidPayload ("Id=\x22" ++ id ++ "\x22 is not in the valid uuid format.")), st)
  else
    match storeGet st id with
    | none =>
      (.error (.NotFound ("cannot delete the Purchaser: Purchaser with id=" ++ id ++ " not found")), st)
    | some purchaser =>
      if purchaser.owner ≠ caller then
        (.error (.AuthenticationFailed "Caller is not the purchaser."), st)
      else
        (.ok purchaser.id, storeRemove st id)

/-- `addPurchasedItem` (index.ts lines 273-293): both ids must be
uuid-formatted, the purchaser must exist and be owned by the caller;
`itemId` is pushed onto `purchasedItem` (no duplicate check and no lookup
in the DataItems store) and the purchaser is stored back. -/
def addPurchasedItem (caller : String) (purchaserId itemId : String)
    (st : Store Purchaser) : Except Message String × Store Purchaser :=
  if !isValidUuid purchaserId then
    (.error (.InvalidPayload ("purchaserId=\x22" ++ purchaserId ++ "\x22 is not in the valid uuid format.")), st)
  else if !isValidUuid itemId then
    (.error (.InvalidPayload ("itemId=\x22" ++ itemId ++ "\x22 is not in the valid uuid format.")), st)
  else
    match storeGet st purchaserId with
    | none => (.error (.NotFound "Purchaser not found"), st)
    | some purchaser =>
      if purchaser.owner ≠ caller then
        (.error (.AuthenticationFailed "Caller is not the purchaser."), st)
      else
        let updated : Purchaser :=
          { purchaser with purchasedItem := purchaser.purchasedItem ++ [itemId] }
        (.ok "Item added to Purchaser", storeInsert st purchaserId updated)

/-- `searchDataItem` (index.ts lines 295-298): keep the values whose
title or description contains the query, case-insensitively. -/
def searchDataItem (st : Store DataItem) (q : String) : List DataItem :=
  (storeValues st).filter fun datum =>
    jsIncludes datum.title.toLower q.toLower || jsIncludes datum.description.toLower q.toLower

/-- `filterDataItem` (index.ts lines 301-304): same over `dataFormat`. -/
def filterDataItem (st : Store DataItem) (q : String) : List DataItem :=
  (storeValues st).filter fun datum =>
    jsIncludes datum.dataFormat.toLower q.toLower

/-- `getInitialDataItem` (index.ts lines 306-310): `values().slice(0, 2)`. -/
def getInitialDataItem (st : Store DataItem) : List DataItem :=
  jsSlice (storeValues st) 0 2

/-- `getMoreDataItems` (index.ts lines 313-316):
`values().slice(Number(start), Number(start + limit))`. -/
def getMoreDataItems (st : Store DataItem) (start limit : Nat) : List DataItem :=
  jsSlice (storeValues st) start (start + limit)

/-! ### Spec-side characterisations

These definitions follow the wording of the specification (not the code)
and are used to state the refinement claims. -/

/-- The spec's canonical-identifier format: five groups of hexadecimal
characters of lengths 8, 4, 4, 4 and 12, separated by hyphens
(case-insensitivity is built into `isHexDigit`). -/
def uuidSpecFormat (s : String) : Prop :=
  ∃ a b c d e : List Char,
    s.data = a ++ '-' :: (b ++ '-' :: (c ++ '-' :: (d ++ '-' :: e))) ∧
    a.length = 8 ∧ b.length = 4 ∧ c.length = 4 ∧ d.length = 4 ∧ e.length = 12 ∧
    a.all isHexDigit = true ∧ b.all isHexDigit = true ∧ c.all isHexDigit = true ∧
    d.all isHexDigit = true ∧ e.all isHexDigit = true

/-- The spec's "contains the query as a case-insensitive substring":
after lowercasing both, the needle's characters occur contiguously
somewhere in the haystack. -/
def containsCI (hay needle : String) : Prop :=
  ∃ l r, hay.toLower.data = l ++ needle.toLower.data ++ r

/-! ### Lemmas about the uuid matcher -/

theorem takeHex_eq_some {n : Nat} {cs rest : List Char} :
    takeHex n cs = some rest ↔
      ∃ pre, cs = pre ++ rest ∧ pre.length = n ∧ pre.all isHexDigit = true := by
  induction n generalizing cs with
  | zero =>
    simp only [takeHex, Option.some.injEq]
    constructor
    · intro h; exact ⟨[], by simp [h]⟩
    · rintro ⟨pre, hcs, hlen, -⟩
      have hpre : pre = [] := List.length_eq_zero.mp hlen
      subst hpre; simpa using hcs
  | succ n ih =>
    cases cs with
    | nil =>
      simp only [takeHex]
      constructor
      · intro h; cases h
      · rintro ⟨pre, hcs, hlen, -⟩
        have h2 := congrArg List.length hcs
        rw [List.length_append, hlen] at h2
        simp at h2
        omega
    | cons c cs' =>
      simp only [takeHex]
      by_cases hc : isHexDigit c
      · rw [if_pos hc, ih]
        constructor
        · rintro ⟨pre, hcs, hlen, hall⟩
          exact ⟨c :: pre, by simp [hcs], by simp [hlen], by simp [hc, hall]⟩
        · rintro ⟨pre, hcs, hlen, hall⟩
          cases pre with
          | nil => simp at hlen
          | cons p ps =>
            obtain ⟨hp, hcs'⟩ : p = c ∧ cs' = ps ++ rest := by
              have := hcs; simp only [List.cons_append, List.cons.injEq] at this
              exact ⟨this.1.symm, this.2⟩
            subst hp
            refine ⟨ps, hcs', ?_, ?_⟩
            · simpa using hlen
            · simp only [List.all_cons, Bool.and_eq_true] at hall
              exact hall.2
      · rw [if_neg hc]
        constructor
        · intro h; cases h
        · rintro ⟨pre, hcs, hlen, hall⟩
          cases pre with
          | nil => simp at hlen
          | cons p ps =>
            have hp : p = c := by
              have := hcs; simp only [List.cons_append, List.cons.injEq] at this
              exact this.1.symm
            subst hp
            simp only [List.all_cons, Bool.and_eq_true] at hall
            exact absurd hall.1 hc

theorem matchGroups_single {n : Nat} {cs : List Char} :
    matchGroups [n] cs = true ↔ cs.length = n ∧ cs.all isHexDigit = true := by
  simp only [matchGroups]
  cases h : takeHex n cs with
  | none =>
    constructor
    · intro hf; cases hf
    · rintro ⟨hlen, hall⟩
      have : takeHex n cs = some [] := takeHex_eq_some.mpr ⟨cs, by simp, hlen, hall⟩
      rw [h] at this; cases this
  | some rest =>
    have hdec := takeHex_eq_some.mp h
    obtain ⟨pre, hcs, hlen, hall⟩ := hdec
    constructor
    · intro hr
      have : rest = [] := by simpa [List.isEmpty_iff] using hr
      subst this
      constructor
      · simpa [hlen] using congrArg List.length hcs
      · simpa [hall] using congrArg (List.all · isHexDigit) hcs
    · rintro ⟨hclen, -⟩
      have hr : rest = [] := by
        have h2 := congrArg List.length hcs
        rw [List.length_append, hlen, hclen] at h2
        have h3 : rest.length = 0 := by omega
        exact List.length_eq_zero.mp h3
      simp [hr]

theorem matchGroups_cons {n m : Nat} {ns : List Nat} {cs : List Char} :
    matchGroups (n :: m :: ns) cs = true ↔
      ∃ g rest, cs = g ++ '-' :: rest ∧ g.length = n ∧ g.all isHexDigit = true ∧
        matchGroups (m :: ns) rest = true := by
  have hnone : ∀ rest : List Char, takeHex n cs = none →
      ¬ ∃ g r, cs = g ++ '-' :: r ∧ g.length = n ∧ g.all isHexDigit = true ∧
        matchGroups (m :: ns) r = true := by
    intro rest h
    rintro ⟨g, r, hcs, hlen, hall, -⟩
    have h2 : takeHex n cs = some ('-' :: r) :=
      takeHex_eq_some.mpr ⟨g, hcs, hlen, hall⟩
    rw [h] at h2; cases h2
  simp only [matchGroups]
  split
  case h_1 heq =>
    constructor
    · intro hf; cases hf
    · intro hex; exact absurd hex (hnone [] heq)
  case h_2 r heq =>
    obtain ⟨pre, hcs, hlen, hall⟩ := takeHex_eq_some.mp heq
    split
    case h_1 =>
      constructor
      · intro hf; cases hf
      · rintro ⟨g, rest, hcs', hlen', hall', -⟩
        have h2 : takeHex n cs = some ('-' :: rest) :=
          takeHex_eq_some.mpr ⟨g, hcs', hlen', hall'⟩
        rw [heq] at h2; cases h2
    case h_2 c r' =>
      by_cases hc : c = '-'
      · subst hc
        rw [if_pos rfl]
        constructor
        · intro hm
          exact ⟨pre, r', hcs, hlen, hall, hm⟩
        · rintro ⟨g, rest, hcs', hlen', hall', hrec⟩
          have h2 : takeHex n cs = some ('-' :: rest) :=
            takeHex_eq_some.mpr ⟨g, hcs', hlen', hall'⟩
          rw [heq] at h2
          have h4 : r' = rest := by
            simp only [Option.some.injEq, List.cons.injEq, true_and] at h2
            exact h2
          exact h4 ▸ hrec
      · rw [if_neg hc]
        constructor
        · intro hf; cases hf
        · rintro ⟨g, rest, hcs', hlen', hall', -⟩
          have h2 : takeHex n cs = some ('-' :: rest) :=
            takeHex_eq_some.mpr ⟨g, hcs', hlen', hall'⟩
          rw [heq] at h2
          have h4 : c = '-' := by
            simp only [Option.some.injEq, List.cons.injEq] at h2
            exact h2.1
          exact absurd h4 hc

theorem isValidUuid_iff_format (s : String) :
    isValidUuid s = true ↔ uuidSpecFormat s := by
  unfold isValidUuid uuidSpecFormat
  rw [matchGroups_cons]
  constructor
  · rintro ⟨a, r1, h1, ha8, haH, hm1⟩
    rw [matchGroups_cons] at hm1
    rcases hm1 with ⟨b, r2, h2, hb4, hbH, hm2⟩
    rw [matchGroups_cons] at hm2
    rcases hm2 with ⟨c, r3, h3, hc4, hcH, hm3⟩
    rw [matchGroups_cons] at hm3
    rcases hm3 with ⟨d, r4, h4, hd4, hdH, hm4⟩
    rw [matchGroups_single] at hm4
    rcases hm4 with ⟨he12, heH⟩
    refine ⟨a, b, c, d, r4, ?_, ha8, hb4, hc4, hd4, he12, haH, hbH, hcH, hdH, heH⟩
    rw [h1, h2, h3, h4]
  · rintro ⟨a, b, c, d, e, hdata, ha8, hb4, hc4, hd4, he12, haH, hbH, hcH, hdH, heH⟩
    refine ⟨a, b ++ '-' :: (c ++ '-' :: (d ++ '-' :: e)), hdata, ha8, haH, ?_⟩
    rw [matchGroups_cons]
    refine ⟨b, c ++ '-' :: (d ++ '-' :: e), rfl, hb4, hbH, ?_⟩
    rw [matchGroups_cons]
    refine ⟨c, d ++ '-' :: e, rfl, hc4, hcH, ?_⟩
    rw [matchGroups_cons]
    refine ⟨d, e, rfl, hd4, hdH, ?_⟩
    rw [matchGroups_single]
    exact ⟨he12, heH⟩

/-! ### Lemmas about the uuid generator -/

theorem hexDigitChar_isHex (n : Nat) : isHexDigit (hexDigitChar n) = true := by
  have h : n % 16 < 16 := Nat.mod_lt _ (by norm_num)
  have hall : ∀ m, m < 16 →
      isHexDigit (if m < 10 then Char.ofNat (48 + m) else Char.ofNat (87 + m)) = true := by
    decide
  simpa [hexDigitChar] using hall _ h

theorem byteToHex_data (n : Nat) :
    (byteToHex n).data = [hexDigitChar (n / 16), hexDigitChar n] := rfl

theorem byteToHex_length (n : Nat) : (byteToHex n).data.length = 2 := rfl

theorem byteToHex_strLength (n : Nat) : (byteToHex n).length = 2 := rfl

theorem byteToHex_allHex (n : Nat) : (byteToHex n).data.all isHexDigit = true := by
  simp [byteToHex_data, hexDigitChar_isHex]

/-- The generated identifier always satisfies the canonical format. -/
theorem uuidv4_valid_format (bytes : List Nat) :
    isValidUuid (uuidv4 bytes) = true := by
  rw [isValidUuid_iff_format]
  set b : Nat → Nat := fun i => bytes.getD i 0 % 256 with hb
  refine ⟨(byteToHex (b 0)).data ++ (byteToHex (b 1)).data ++ (byteToHex (b 2)).data
      ++ (byteToHex (b 3)).data,
    (byteToHex (b 4)).data ++ (byteToHex (b 5)).data,
    (byteToHex (b 6 % 16 + 64)).data ++ (byteToHex (b 7)).data,
    (byteToHex (b 8 % 64 + 128)).data ++ (byteToHex (b 9)).data,
    (byteToHex (b 10)).data ++ (byteToHex (b 11)).data ++ (byteToHex (b 12)).data
      ++ (byteToHex (b 13)).data ++ (byteToHex (b 14)).data ++ (byteToHex (b 15)).data,
    ?_, ?_, ?_, ?_, ?_, ?_, ?_, ?_, ?_, ?_, ?_⟩
  · show (uuidv4 bytes).data = _
    simp only [uuidv4, String.data_append, List.append_assoc, ← hb]
    rfl
  · simp [byteToHex_length, byteToHex_strLength]
  · simp [byteToHex_length, byteToHex_strLength]
  · simp [byteToHex_length, byteToHex_strLength]
  · simp [byteToHex_length, byteToHex_strLength]
  · simp [byteToHex_length, byteToHex_strLength]
  · simp [byteToHex_allHex]
  · simp [byteToHex_allHex]
  · simp [byteToHex_allHex]
  · simp [byteToHex_allHex]
  · simp [byteToHex_allHex]

/-! ### Substring and slice lemmas -/

theorem matchesAt_iff (needle hay : List Char) :
    matchesAt needle hay = true ↔ ∃ r, hay = needle ++ r := by
  induction needle generalizing hay with
  | nil =>
    constructor
    · intro _; exact ⟨hay, rfl⟩
    · intro _; rfl
  | cons a as ih =>
    cases hay with
    | nil =>
      simp only [matchesAt]
      constructor
      · intro hf; cases hf
      · rintro ⟨r, hr⟩; cases hr
    | cons b bs =>
      simp only [matchesAt]
      by_cases hab : a = b
      · subst hab
        rw [if_pos rfl, ih]
        constructor
        · rintro ⟨r, hr⟩
          exact ⟨r, by rw [hr, List.cons_append]⟩
        · rintro ⟨r, hr⟩
          obtain ⟨-, h2⟩ := List.cons.inj hr
          exact ⟨r, h2⟩
      · rw [if_neg hab]
        constructor
        · intro hf; cases hf
        · rintro ⟨r, hr⟩
          obtain ⟨h1, -⟩ := List.cons.inj hr
          exact absurd h1.symm hab

theorem includesSub_iff (needle hay : List Char) :
    includesSub needle hay = true ↔ ∃ l r, hay = l ++ needle ++ r := by
  induction hay with
  | nil =>
    simp only [includesSub, matchesAt_iff]
    constructor
    · rintro ⟨r, hr⟩; exact ⟨[], r, by simpa using hr⟩
    · rintro ⟨l, r, hr⟩
      rcases List.append_eq_nil.mp (List.append_eq_nil.mp hr.symm).1 with ⟨-, h2⟩
      exact ⟨[], by simp [h2]⟩
  | cons c t ih =>
    simp only [includesSub, Bool.or_eq_true, matchesAt_iff, ih]
    constructor
    · rintro (⟨r, hr⟩ | ⟨l, r, hr⟩)
      · exact ⟨[], r, by simpa using hr⟩
      · exact ⟨c :: l, r, by simp [hr]⟩
    · rintro ⟨l, r, hr⟩
      cases l with
      | nil => exact Or.inl ⟨r, by simpa using hr⟩
      | cons x xs =>
        obtain ⟨-, h2⟩ := List.cons.inj (by simpa using hr)
        exact Or.inr ⟨xs, r, by rw [List.append_assoc]; exact h2⟩

theorem jsIncludes_iff_containsCI (hay needle : String) :
    jsIncludes hay.toLower needle.toLower = true ↔ containsCI hay needle := by
  unfold jsIncludes containsCI
  exact includesSub_iff _ _

theorem jsSlice_drop_take (l : List α) (a b : Nat) :
    jsSlice l a (a + b) = (l.drop a).take b := by
  unfold jsSlice
  rw [List.drop_take]
  congr 1
  omega

/-! ### String-trim lemma -/

theorem isInvalidString_iff (s : String) :
    isInvalidString s = true ↔ jsTrim s = "" := by
  unfold isInvalidString jsTrim
  rw [beq_iff_eq]
  constructor
  · intro h
    have hd : trimChars s.data = [] := List.length_eq_zero.mp h
    rw [hd]
  · intro h
    have hd : trimChars s.data = [] := by
      have := congrArg String.data h
      simpa using this
    simp [String.length, hd]

/-! ### Store lemmas -/

theorem storeGet_insert_self (m : Store α) (k : String) (v : α) :
    storeGet (storeInsert m k v) k = some v := by
  induction m with
  | nil => simp [storeInsert, storeGet]
  | cons kv rest ih =>
    obtain ⟨k', v'⟩ := kv
    by_cases h : k' = k
    · simp [storeInsert, storeGet, h]
    · simp [storeInsert, storeGet, h, ih]

/-- The id-coherence invariant: every stored value carries the key it is
stored under in its `id`-like field. -/
def StoreInv (idOf : α → String) (m : Store α) : Prop :=
  ∀ kv ∈ m, idOf kv.2 = kv.1

theorem storeGet_inv {idOf : α → String} {m : Store α} {k : String} {v : α}
    (hinv : StoreInv idOf m) (hget : storeGet m k = some v) : idOf v = k := by
  induction m with
  | nil => cases hget
  | cons kv rest ih =>
    obtain ⟨k', v'⟩ := kv
    by_cases h : k' = k
    · rw [storeGet, if_pos h] at hget
      have hvv : v' = v := by injection hget
      subst hvv
      rw [← h]
      exact hinv (k', v') (List.mem_cons_self _ _)
    · rw [storeGet, if_neg h] at hget
      exact ih (fun kv hkv => hinv kv (List.mem_cons_of_mem _ hkv)) hget

theorem storeInsert_inv {idOf : α → String} {m : Store α} {k : String} {v : α}
    (hinv : StoreInv idOf m) (hk : idOf v = k) : StoreInv idOf (storeInsert m k v) := by
  induction m with
  | nil =>
    intro kv hkv
    simp only [storeInsert, List.mem_singleton] at hkv
    rw [hkv]
    exact hk
  | cons kv₀ rest ih =>
    obtain ⟨k', v'⟩ := kv₀
    intro kv hkv
    by_cases h : k' = k
    · rw [storeInsert, if_pos h] at hkv
      rcases List.mem_cons.mp hkv with h1 | h2
      · rw [h1]; exact hk
      · exact hinv kv (List.mem_cons_of_mem _ h2)
    · rw [storeInsert, if_neg h] at hkv
      rcases List.mem_cons.mp hkv with h1 | h2
      · rw [h1]; exact hinv (k', v') (List.mem_cons_self _ _)
      · exact ih (fun kv hkv => hinv kv (List.mem_cons_of_mem _ hkv)) kv h2

theorem storeRemove_inv {idOf : α → String} {m : Store α} {k : String}
    (hinv : StoreInv idOf m) : StoreInv idOf (storeRemove m k) := by
  induction m with
  | nil => intro kv hkv; cases hkv
  | cons kv₀ rest ih =>
    obtain ⟨k', v'⟩ := kv₀
    intro kv hkv
    by_cases h : k' = k
    · rw [storeRemove, if_pos h] at hkv
      exact hinv kv (List.mem_cons_of_mem _ hkv)
    · rw [storeRemove, if_neg h] at hkv
      rcases List.mem_cons.mp hkv with h1 | h2
      · rw [h1]; exact hinv (k', v') (List.mem_cons_self _ _)
      · exact ih (fun kv hkv => hinv kv (List.mem_cons_of_mem _ hkv)) kv h2

/-! ### Concrete fixtures used by witnesses and counterexamples -/

def uuidA : String := "11111111-1111-1111-1111-111111111111"

def uuidB : String := "22222222-2222-2222-2222-222222222222"

def samplePayload : DataItemPayload :=
  { title := "Dataset A", description := "CSV file", price := 100,
    attachmentURL := "http://x", dataFormat := "csv", status := "active",
    quality := "high", rating := 5 }

def sampleItem : DataItem :=
  { id := uuidA, title := "Old title", description := "Old desc", price := 1,
    seller := "alice", attachmentURL := "http://old", dataFormat := "csv",
    status := "listed", quality := "low", rating := 0 }

def samplePurchaser : Purchaser :=
  { id := uuidA, owner := "alice", name := "Alice", price := 10,
    message := "hi", purchasedItem := ["x1"] }

def samplePPayload : PurchaserPayload :=
  { name := "Bob", price := 7, message := "yo" }

/-! ### The claims -/

/-- C1: on every ownership-gated mutation (updateDataItem, updatePurchaser,
deleteDataItem, deletePurchaser, addPurchasedItem), a caller that differs
from the stored seller/owner gets `AuthenticationFailed` and the store is
left exactly as it was. -/
theorem claim_auth_failed_preserves_state
    (caller id itemId : String) (p : DataItemPayload) (q : PurchaserPayload)
    (stD : Store DataItem) (stP : Store Purchaser) (d : DataItem) (u : Purchaser)
    (hid : isValidUuid id = true) (hitem : isValidUuid itemId = true)
    (hp : validateDataItemPayload p = []) (hq : validatePurchaserPayload q = [])
    (hd : storeGet stD id = some d) (hu : storeGet stP id = some u)
    (hds : d.seller ≠ caller) (hus : u.owner ≠ caller) :
    updateDataItem caller id p stD =
      (.error (.AuthenticationFailed "Caller is not the seller of the item."), stD) ∧
    updatePurchaser caller id q stP =
      (.error (.AuthenticationFailed "Caller is not the purchaser."), stP) ∧
    deleteDataItem caller id stD =
      (.error (.AuthenticationFailed "Caller is not the seller of the item."), stD) ∧
    deletePurchaser caller id stP =
      (.error (.AuthenticationFailed "Caller is not the purchaser."), stP) ∧
    addPurchasedItem caller id itemId stP =
      (.error (.AuthenticationFailed "Caller is not the purchaser."), stP) := by
  refine ⟨?_, ?_, ?_, ?_, ?_⟩
  · simp [updateDataItem, hid, hp, hd, hds]
  · simp [updatePurchaser, hid, hq, hu, hus]
  · simp [deleteDataItem, hid, hd, hds]
  · simp [deletePurchaser, hid, hu, hus]
  · simp [addPurchasedItem, hid, hitem, hu, hus]

theorem claim_auth_failed_preserves_state_witness :
    updateDataItem "bob" uuidA samplePayload [(uuidA, sampleItem)] =
      (.error (.AuthenticationFailed "Caller is not the seller of the item."),
        [(uuidA, sampleItem)]) ∧
    deleteDataItem "bob" uuidA [(uuidA, sampleItem)] =
      (.error (.AuthenticationFailed "Caller is not the seller of the item."),
        [(uuidA, sampleItem)]) ∧
    addPurchasedItem "bob" uuidA uuidB [(uuidA, samplePurchaser)] =
      (.error (.AuthenticationFailed "Caller is not the purchaser."),
        [(uuidA, samplePurchaser)]) := by
  have h := claim_auth_failed_preserves_state "bob" uuidA uuidB samplePayload samplePPayload
    [(uuidA, sampleItem)] [(uuidA, samplePurchaser)] sampleItem samplePurchaser
    (by decide) (by decide) (by decide) (by decide) (by decide) (by decide)
    (by decide) (by decide)
  exact ⟨h.1, h.2.2.1, h.2.2.2.2⟩

/-- C2: a successful update keeps `id` and `seller` (resp. `id`, `owner`
and also `purchasedItem`) from the stored record, takes every payload
field from the payload, and stores the merged record back under the id. -/
theorem claim_update_merges_preserving_id_owner
    (caller id : String) (p : DataItemPayload) (q : PurchaserPayload)
    (stD : Store DataItem) (stP : Store Purchaser) (d : DataItem) (u : Purchaser)
    (hid : isValidUuid id = true)
    (hp : validateDataItemPayload p = []) (hq : validatePurchaserPayload q = [])
    (hd : storeGet stD id = some d) (hu : storeGet stP id = some u)
    (hds : d.seller = caller) (hus : u.owner = caller) :
    ∃ d' u',
      updateDataItem caller id p stD = (.ok d', storeInsert stD id d') ∧
      updatePurchaser caller id q stP = (.ok u', storeInsert stP id u') ∧
      storeGet (updateDataItem caller id p stD).2 id = some d' ∧
      storeGet (updatePurchaser caller id q stP).2 id = some u' ∧
      d'.id = d.id ∧ d'.seller = d.seller ∧
      d'.title = p.title ∧ d'.description = p.description ∧ d'.price = p.price ∧
      d'.attachmentURL = p.attachmentURL ∧ d'.dataFormat = p.dataFormat ∧
      d'.status = p.status ∧ d'.quality = p.quality ∧ d'.rating = p.rating ∧
      u'.id = u.id ∧ u'.owner = u.owner ∧ u'.purchasedItem = u.purchasedItem ∧
      u'.name = q.name ∧ u'.price = q.price ∧ u'.message = q.message := by
  have hmainD : updateDataItem caller id p stD =
      (.ok (mergeDataItem d p), storeInsert stD id (mergeDataItem d p)) := by
    simp [updateDataItem, hid, hp, hd, hds]
  have hmainP : updatePurchaser caller id q stP =
      (.ok (mergePurchaser u q), storeInsert stP id (mergePurchaser u q)) := by
    simp [updatePurchaser, hid, hq, hu, hus]
  refine ⟨mergeDataItem d p, mergePurchaser u q, hmainD, hmainP, ?_, ?_,
    rfl, rfl, rfl, rfl, rfl, rfl, rfl, rfl, rfl, rfl, rfl, rfl, rfl, rfl, rfl, rfl⟩
  · rw [hmainD]; exact storeGet_insert_self _ _ _
  · rw [hmainP]; exact storeGet_insert_self _ _ _

theorem claim_update_merges_preserving_id_owner_witness :
    ∃ d' u',
      updateDataItem "alice" uuidA samplePayload [(uuidA, sampleItem)] =
        (.ok d', storeInsert [(uuidA, sampleItem)] uuidA d') ∧
      updatePurchaser "alice" uuidA samplePPayload [(uuidA, samplePurchaser)] =
        (.ok u', storeInsert [(uuidA, samplePurchaser)] uuidA u') ∧
      storeGet (updateDataItem "alice" uuidA samplePayload [(uuidA, sampleItem)]).2 uuidA =
        some d' ∧
      storeGet (updatePurchaser "alice" uuidA samplePPayload [(uuidA, samplePurchaser)]).2
        uuidA = some u' ∧
      d'.id = sampleItem.id ∧ d'.seller = sampleItem.seller ∧
      d'.title = samplePayload.title ∧ d'.description = samplePayload.description ∧
      d'.price = samplePayload.price ∧
      d'.attachmentURL = samplePayload.attachmentURL ∧
      d'.dataFormat = samplePayload.dataFormat ∧
      d'.status = samplePayload.status ∧ d'.quality = samplePayload.quality ∧
      d'.rating = samplePayload.rating ∧
      u'.id = samplePurchaser.id ∧ u'.owner = samplePurchaser.owner ∧
      u'.purchasedItem = samplePurchaser.purchasedItem ∧
      u'.name = samplePPayload.name ∧ u'.price = samplePPayload.price ∧
      u'.message = samplePPayload.message :=
  claim_update_merges_preserving_id_owner "alice" uuidA samplePayload samplePPayload
    [(uuidA, sampleItem)] [(uuidA, samplePurchaser)] sampleItem samplePurchaser
    (by decide) (by decide) (by decide) (by decide) (by decide) (by decide) (by decide)

/-- The all-zero random byte sequence the `getRandomValues` polyfill
produces when every `Math.random()` draw is below 1/256.  Nothing
prevents the same byte sequence from being produced on two different
calls, which is what the C3 counterexample exploits. -/
def zeroBytes : List Nat := List.replicate 32 0

/-- A record previously created under the id the zero byte sequence
generates. -/
def zeroItem : DataItem :=
  { id := uuidv4 zeroBytes, title := "Existing", description := "already here",
    price := 3, seller := "carol", attachmentURL := "http://z", dataFormat := "csv",
    status := "listed", quality := "ok", rating := 2 }

/-- C3 (amended): for every valid payload and every random byte sequence,
addDataItem returns Ok with a record whose id is in the canonical
8-4-4-4-12 hexadecimal format, whose seller is the caller, whose payload
fields come from the payload, and which is stored under its id.
Distinctness of the id from previously generated ids is NOT guaranteed
(see the counterexample) and is dropped here. -/
theorem claim_addDataItem_creates_canonical_record
    (caller : String) (bytes : List Nat) (st : Store DataItem) (p : DataItemPayload)
    (hp : validateDataItemPayload p = []) :
    ∃ d st', addDataItem caller bytes st p = (.ok d, st') ∧
      isValidUuid d.id = true ∧ d.seller = caller ∧ storeGet st' d.id = some d ∧
      d.title = p.title ∧ d.description = p.description ∧ d.price = p.price ∧
      d.attachmentURL = p.attachmentURL ∧ d.dataFormat = p.dataFormat ∧
      d.status = p.status ∧ d.quality = p.quality ∧ d.rating = p.rating := by
  refine ⟨createdDataItem caller bytes p,
    storeInsert st (createdDataItem caller bytes p).id (createdDataItem caller bytes p),
    ?_, uuidv4_valid_format bytes, rfl, ?_, rfl, rfl, rfl, rfl, rfl, rfl, rfl, rfl⟩
  · simp [addDataItem, hp]
  · exact storeGet_insert_self _ _ _

theorem claim_addDataItem_creates_canonical_record_witness :
    ∃ d st', addDataItem "alice" zeroBytes [] samplePayload = (.ok d, st') ∧
      isValidUuid d.id = true ∧ d.seller = "alice" ∧ storeGet st' d.id = some d ∧
      d.title = samplePayload.title ∧ d.description = samplePayload.description ∧
      d.price = samplePayload.price ∧
      d.attachmentURL = samplePayload.attachmentURL ∧
      d.dataFormat = samplePayload.dataFormat ∧
      d.status = samplePayload.status ∧ d.quality = samplePayload.quality ∧
      d.rating = samplePayload.rating :=
  claim_addDataItem_creates_canonical_record "alice" zeroBytes [] samplePayload (by decide)

/-- C3 counterexample: the id generator is a pure function of the random
bytes, so when the polyfill hands back the same byte sequence twice the
"fresh" id equals the id of an already stored record: addDataItem then
returns a record carrying an id that is NOT distinct from every
previously generated id, and silently overwrites the stored record. -/
theorem claim_addDataItem_unique_id_counterexample :
    uuidv4 zeroBytes = "00000000-0000-4000-8000-000000000000" ∧
    storeGet [(zeroItem.id, zeroItem)] "00000000-0000-4000-8000-000000000000"
      = some zeroItem ∧
    (addDataItem "alice" zeroBytes [(zeroItem.id, zeroItem)] samplePayload).1 =
      .ok (createdDataItem "alice" zeroBytes samplePayload) ∧
    (createdDataItem "alice" zeroBytes samplePayload).id = zeroItem.id ∧
    storeGet (addDataItem "alice" zeroBytes [(zeroItem.id, zeroItem)] samplePayload).2
      zeroItem.id ≠ some zeroItem := by
  refine ⟨by decide, by decide, by rfl, by decide, by decide⟩

/-- C4: the identifier validator accepts exactly the strings in the
8-4-4-4-12 case-insensitive hexadecimal format, and on any string it
rejects, getDataItem answers the malformed-id error regardless of the
store contents — never the not-found error. -/
theorem claim_uuid_validator_refines_format (s : String) (st : Store DataItem) :
    (isValidUuid s = true ↔ uuidSpecFormat s) ∧
    (isValidUuid s = false →
      getDataItem st s =
        .error ("Id=\x22" ++ s ++ "\x22 is not in the valid uuid format.") ∧
      getDataItem st s ≠ .error "Data Item not found") := by
  refine ⟨isValidUuid_iff_format s, fun hinv => ?_⟩
  have hres : getDataItem st s =
      .error ("Id=\x22" ++ s ++ "\x22 is not in the valid uuid format.") := by
    simp [getDataItem, hinv]
  refine ⟨hres, ?_⟩
  rw [hres]
  intro h
  have h2 : ("Id=\x22" ++ s ++ "\x22 is not in the valid uuid format." : String) =
      "Data Item not found" := by
    injection h
  have hl := congrArg String.length h2
  rw [String.length_append, String.length_append] at hl
  have c1 : ("Id=\x22" : String).length = 4 := rfl
  have c2 : ("\x22 is not in the valid uuid format." : String).length = 34 := rfl
  have c3 : ("Data Item not found" : String).length = 19 := rfl
  rw [c1, c2, c3] at hl
  omega

theorem claim_uuid_validator_refines_format_witness :
    getDataItem [] "not-a-uuid" =
      .error ("Id=\x22" ++ "not-a-uuid" ++ "\x22 is not in the valid uuid format.") ∧
    getDataItem [] "not-a-uuid" ≠ .error "Data Item not found" :=
  (claim_uuid_validator_refines_format "not-a-uuid" []).2 (by decide)

/-- C5: a payload passes validation exactly when all its required text
fields are non-empty after trimming and its price is nonzero, and the
validators collect one error per violated field — all violations are
reported together, not just the first. -/
theorem claim_validators_collect_all_errors (p : DataItemPayload) (q : PurchaserPayload) :
    (validateDataItemPayload p = [] ↔
      (jsTrim p.description ≠ "" ∧ jsTrim p.quality ≠ "" ∧ jsTrim p.title ≠ "" ∧
        jsTrim p.attachmentURL ≠ "" ∧ p.price ≠ 0)) ∧
    (validateDataItemPayload p).length =
      (if jsTrim p.description = "" then 1 else 0) +
      (if jsTrim p.quality = "" then 1 else 0) +
      (if jsTrim p.title = "" then 1 else 0) +
      (if jsTrim p.attachmentURL = "" then 1 else 0) +
      (if p.price = 0 then 1 else 0) ∧
    (validatePurchaserPayload q = [] ↔
      (jsTrim q.name ≠ "" ∧ jsTrim q.message ≠ "" ∧ q.price ≠ 0)) ∧
    (validatePurchaserPayload q).length =
      (if jsTrim q.name = "" then 1 else 0) +
      (if jsTrim q.message = "" then 1 else 0) +
      (if q.price = 0 then 1 else 0) := by
  refine ⟨?_, ?_, ?_, ?_⟩
  · simp only [validateDataItemPayload, isInvalidString_iff, beq_iff_eq]
    split_ifs <;> simp_all
  · simp only [validateDataItemPayload, isInvalidString_iff, beq_iff_eq]
    split_ifs <;> simp_all
  · simp only [validatePurchaserPayload, isInvalidString_iff, beq_iff_eq]
    split_ifs <;> simp_all
  · simp only [validatePurchaserPayload, isInvalidString_iff, beq_iff_eq]
    split_ifs <;> simp_all

/-- C6 (amended): for every uuid-formatted id not present in the
DataItems store, deleteDataItem returns NotFound and leaves the store
unchanged.  The format hypothesis is necessary: on a malformed absent id
the call returns InvalidPayload instead (see the counterexample). -/
theorem claim_delete_absent_returns_notfound
    (caller id : String) (st : Store DataItem)
    (hid : isValidUuid id = true) (habs : storeGet st id = none) :
    deleteDataItem caller id st =
      (.error (.NotFound
        ("cannot delete the DataItem: DataItem with id=" ++ id ++ " not found")), st) := by
  simp [deleteDataItem, hid, habs]

theorem claim_delete_absent_returns_notfound_witness :
    deleteDataItem "alice" uuidB [] =
      (.error (.NotFound
        ("cannot delete the DataItem: DataItem with id=" ++ uuidB ++ " not found")), []) :=
  claim_delete_absent_returns_notfound "alice" uuidB [] (by decide) (by decide)

/-- C6 counterexample: "not-a-uuid" is absent from the empty store, yet
deleteDataItem returns InvalidPayload — not NotFound — because the id
format check runs before the store lookup. -/
theorem claim_delete_absent_returns_notfound_counterexample :
    storeGet ([] : Store DataItem) "not-a-uuid" = none ∧
    deleteDataItem "alice" "not-a-uuid" [] =
      (.error (.InvalidPayload
        "Id=\x22not-a-uuid\x22 is not in the valid uuid format."), []) := by
  refine ⟨by decide, by rfl⟩

/-- C7: for a caller owning the stored purchaser and well-formed ids,
addPurchasedItem stores the purchaser with itemId appended at the end of
purchasedItem — prior entries untouched and in order, no duplicate or
DataItem-existence check — and every other field unchanged. -/
theorem claim_addPurchasedItem_appends
    (caller purchaserId itemId : String) (st : Store Purchaser) (u : Purchaser)
    (hpid : isValidUuid purchaserId = true) (hiid : isValidUuid itemId = true)
    (hu : storeGet st purchaserId = some u) (hown : u.owner = caller) :
    ∃ u', addPurchasedItem caller purchaserId itemId st =
        (.ok "Item added to Purchaser", storeInsert st purchaserId u') ∧
      storeGet (addPurchasedItem caller purchaserId itemId st).2 purchaserId = some u' ∧
      u'.purchasedItem = u.purchasedItem ++ [itemId] ∧
      u'.id = u.id ∧ u'.owner = u.owner ∧ u'.name = u.name ∧
      u'.price = u.price ∧ u'.message = u.message := by
  have hmain : addPurchasedItem caller purchaserId itemId st =
      (.ok "Item added to Purchaser",
        storeInsert st purchaserId { u with purchasedItem := u.purchasedItem ++ [itemId] }) := by
    simp [addPurchasedItem, hpid, hiid, hu, hown]
  refine ⟨{ u with purchasedItem := u.purchasedItem ++ [itemId] }, hmain, ?_,
    rfl, rfl, rfl, rfl, rfl, rfl⟩
  rw [hmain]
  exact storeGet_insert_self _ _ _

theorem claim_addPurchasedItem_appends_witness :
    ∃ u', addPurchasedItem "alice" uuidA uuidB [(uuidA, samplePurchaser)] =
        (.ok "Item added to Purchaser", storeInsert [(uuidA, samplePurchaser)] uuidA u') ∧
      storeGet (addPurchasedItem "alice" uuidA uuidB [(uuidA, samplePurchaser)]).2 uuidA
        = some u' ∧
      u'.purchasedItem = samplePurchaser.purchasedItem ++ [uuidB] ∧
      u'.id = samplePurchaser.id ∧ u'.owner = samplePurchaser.owner ∧
      u'.name = samplePurchaser.name ∧
      u'.price = samplePurchaser.price ∧ u'.message = samplePurchaser.message :=
  claim_addPurchasedItem_appends "alice" uuidA uuidB [(uuidA, samplePurchaser)]
    samplePurchaser (by decide) (by decide) (by decide) (by decide)

/-- C8: searchDataItem returns exactly the stored records whose title or
description contains the query case-insensitively, as a subsequence of
values() (store iteration order); filterDataItem does the same over
dataFormat; both return the empty sequence on an empty store. -/
theorem claim_search_filter_substring (st : Store DataItem) (q : String) :
    List.Sublist (searchDataItem st q) (storeValues st) ∧
    (∀ d, d ∈ searchDataItem st q ↔
      d ∈ storeValues st ∧ (containsCI d.title q ∨ containsCI d.description q)) ∧
    List.Sublist (filterDataItem st q) (storeValues st) ∧
    (∀ d, d ∈ filterDataItem st q ↔ d ∈ storeValues st ∧ containsCI d.dataFormat q) ∧
    (st = [] → searchDataItem st q = [] ∧ filterDataItem st q = []) := by
  refine ⟨List.filter_sublist _, ?_, List.filter_sublist _, ?_, ?_⟩
  · intro d
    simp [searchDataItem, List.mem_filter, jsIncludes_iff_containsCI]
  · intro d
    simp [filterDataItem, List.mem_filter, jsIncludes_iff_containsCI]
  · intro h
    subst h
    exact ⟨rfl, rfl⟩

theorem claim_search_filter_substring_witness :
    searchDataItem [] "foo" = [] ∧ filterDataItem [] "foo" = [] :=
  (claim_search_filter_substring [] "foo").2.2.2.2 rfl

/-- C9: getMoreDataItems returns the contiguous slice of values() from
offset start of length at most limit, clamped to the available records;
a start at or past the end yields the empty sequence. -/
theorem claim_getMoreDataItems_slice (st : Store DataItem) (start limit : Nat) :
    getMoreDataItems st start limit = ((storeValues st).drop start).take limit ∧
    (getMoreDataItems st start limit).length ≤ limit ∧
    ((storeValues st).length ≤ start → getMoreDataItems st start limit = []) := by
  have h : getMoreDataItems st start limit = ((storeValues st).drop start).take limit := by
    unfold getMoreDataItems
    exact jsSlice_drop_take _ _ _
  refine ⟨h, ?_, ?_⟩
  · rw [h]
    exact List.length_take_le _ _
  · intro hle
    rw [h, List.drop_eq_nil_of_le hle, List.take_nil]

theorem claim_getMoreDataItems_slice_witness :
    getMoreDataItems (List.replicate 4 (uuidA, sampleItem)) 5 3 = [] :=
  (claim_getMoreDataItems_slice (List.replicate 4 (uuidA, sampleItem)) 5 3).2.2 (by decide)

/-- C10: every stored record's id equals its key, every operation
preserves this, and under it a successful delete returns exactly the id
it was called with. -/
theorem claim_id_equals_key_invariant
    (caller id purchaserId itemId : String) (bytes : List Nat)
    (p : DataItemPayload) (q : PurchaserPayload)
    (stD : Store DataItem) (stP : Store Purchaser)
    (hD : StoreInv DataItem.id stD) (hP : StoreInv Purchaser.id stP) :
    StoreInv DataItem.id (addDataItem caller bytes stD p).2 ∧
    StoreInv Purchaser.id (addPurchaser caller bytes stP q).2 ∧
    StoreInv DataItem.id (updateDataItem caller id p stD).2 ∧
    StoreInv Purchaser.id (updatePurchaser caller id q stP).2 ∧
    StoreInv Purchaser.id (addPurchasedItem caller purchaserId itemId stP).2 ∧
    StoreInv DataItem.id (deleteDataItem caller id stD).2 ∧
    StoreInv Purchaser.id (deletePurchaser caller id stP).2 ∧
    (∀ r stD', deleteDataItem caller id stD = (.ok r, stD') → r = id) ∧
    (∀ r stP', deletePurchaser caller id stP = (.ok r, stP') → r = id) := by
  refine ⟨?_, ?_, ?_, ?_, ?_, ?_, ?_, ?_, ?_⟩
  · simp only [addDataItem]
    split
    · exact hD
    · exact storeInsert_inv hD rfl
  · simp only [addPurchaser]
    split
    · exact hP
    · exact storeInsert_inv hP rfl
  · simp only [updateDataItem]
    split
    · exact hD
    · split
      · exact hD
      · split
        · exact hD
        · rename_i data heq
          split
          · exact hD
          · have hkey : data.id = id := storeGet_inv hD heq
            exact storeInsert_inv hD hkey
  · simp only [updatePurchaser]
    split
    · exact hP
    · split
      · exact hP
      · split
        · exact hP
        · rename_i purchaser heq
          split
          · exact hP
          · have hkey : purchaser.id = id := storeGet_inv hP heq
            exact storeInsert_inv hP hkey
  · simp only [addPurchasedItem]
    split
    · exact hP
    · split
      · exact hP
      · split
        · exact hP
        · rename_i purchaser heq
          split
          · exact hP
          · have hkey : purchaser.id = purchaserId := storeGet_inv hP heq
            exact storeInsert_inv hP hkey
  · simp only [deleteDataItem]
    split
    · exact hD
    · split
      · exact hD
      · split
        · exact hD
        · exact storeRemove_inv hD
  · simp only [deletePurchaser]
    split
    · exact hP
    · split
      · exact hP
      · split
        · exact hP
        · exact storeRemove_inv hP
  · intro r stD' hcall
    simp only [deleteDataItem] at hcall
    split at hcall
    · simp at hcall
    · split at hcall
      · simp at hcall
      · rename_i dataItem heq
        split at hcall
        · simp at hcall
        · have hr : dataItem.id = r := by
            have := congrArg Prod.fst hcall
            simpa using this
          rw [← hr]
          exact storeGet_inv hD heq
  · intro r stP' hcall
    simp only [deletePurchaser] at hcall
    split at hcall
    · simp at hcall
    · split at hcall
      · simp at hcall
      · rename_i purchaser heq
        split at hcall
        · simp at hcall
        · have hr : purchaser.id = r := by
            have := congrArg Prod.fst hcall
            simpa using this
          rw [← hr]
          exact storeGet_inv hP heq

theorem claim_id_equals_key_invariant_witness :
    StoreInv DataItem.id
      (addDataItem "alice" zeroBytes [(uuidA, sampleItem)] samplePayload).2 ∧
    StoreInv DataItem.id
      (updateDataItem "alice" uuidA samplePayload [(uuidA, sampleItem)]).2 ∧
    (∀ r stD', deleteDataItem "alice" uuidA [(uuidA, sampleItem)] = (.ok r, stD') →
      r = uuidA) := by
  have h := claim_id_equals_key_invariant "alice" uuidA uuidA uuidB zeroBytes
    samplePayload samplePPayload [(uuidA, sampleItem)] [(uuidA, samplePurchaser)]
    (by unfold StoreInv; decide) (by unfold StoreInv; decide)
  exact ⟨h.1, h.2.2.1, h.2.2.2.2.2.2.2.1⟩

end Marketplace
